import Mathlib

/-!
# Hall of Shame — verification of the aggregation core

Shallow embedding of `src/main.go` (the `hall-of-shame` cf CLI plugin).
The program lists workloads (`GetAllApps`), fetches per-instance runtime
statistics for each workload (`GetAppStats`), aggregates each workload's
usage into an `appStatSummary`, sorts the summaries descending by ratio
(`sort.Sort(byRatio(...))`) and renders a table.

Modelling conventions:
* Go `int` fields holding byte quantities and counts are modelled by `Nat`
  (the program only ever receives nonnegative JSON numbers for them; for
  nonnegative operands Go integer division and `Nat` division agree).
* Go `float64` arithmetic on these integer-valued quantities is modelled by
  `ℚ`.  Go float division by zero yields a non-finite value (`+Inf`/`NaN`);
  in the `ℚ` model division by zero follows the Lean convention `x / 0 = 0`.
  Theorems about the ratio therefore carry a `0 < AvgMemoryUse` hypothesis
  wherever the distinction matters, and claims about float *comparisons*,
  whose outcome the non-finite values change (every comparison with `NaN`
  is false), use the explicit float-value model `GoFloat` instead.
* A Go `map[string]AppStat` is modelled by an association list
  `List (String × AppStat)`; indexing a missing key yields the zero value,
  exactly as in Go.
* The JSON decoder (`encoding/json`) and the CLI connection are external
  collaborators; the fetch functions are parameterised over them.
* `Run` spawns one goroutine per workload under a `sizedwaitgroup` bound
  of 2; completion order is nondeterministic but the *set* of summaries is
  not, so aggregation is modelled by a `filterMap` of the per-workload
  worker body over the workload list.  The bounded-concurrency discipline
  itself is modelled separately as a labelled transition system (`SWGStep`).
-/

/-! ## Data model (structures from src/main.go, lines 43–82) -/

/-- `AppStat.Stats.Usage` from src/main.go: the observed resident memory
(`mem`) of one instance, in bytes.  (The source also carries time, cpu and
disk fields, unused by the aggregation.) -/
structure AppStatUsage where
  Mem : Nat
deriving DecidableEq, Repr

/-- `AppStat.Stats` from src/main.go: the declared memory quota
(`mem_quota`) of one instance plus its usage sample.  (Unused fields such
as name, host, port and uptime are omitted.) -/
structure AppStatStats where
  MemQuota : Nat
  Usage : AppStatUsage
deriving DecidableEq, Repr

/-- `AppStat` from src/main.go, lines 63–82: one instance's runtime stat:
lifecycle state (for example "RUNNING") and the nested stats record. -/
structure AppStat where
  State : String
  Stats : AppStatStats
deriving DecidableEq, Repr

/-- The Go zero value of `AppStat`: what indexing a `map[string]AppStat`
with an absent key yields (empty state string, zero quota, zero usage). -/
def zeroAppStat : AppStat :=
  { State := "", Stats := { MemQuota := 0, Usage := { Mem := 0 } } }

/-- A `map[string]AppStat` (instance index, stringified ordinal, to stat),
as returned by `GetAppStats`. -/
abbrev StatsMap := List (String × AppStat)

/-- Go map indexing `stats[k]`: the entry at key `k`, or the zero value of
`AppStat` when the key is absent. -/
def statsGet (stats : StatsMap) (k : String) : AppStat :=
  (stats.lookup k).getD zeroAppStat

/-- The loop of src/main.go, lines 118–121: `totalUsage` sums
`stat.Stats.Usage.Mem` over all entries of the stats map. -/
def statsTotalUsage (stats : StatsMap) : Nat :=
  (stats.map (fun p => p.2.Stats.Usage.Mem)).sum

/-- `AppSearchMetaData` from src/main.go, lines 52–55. -/
structure AppSearchMetaData where
  Guid : String
  Url : String
deriving DecidableEq, Repr

/-- `AppSearchEntity` from src/main.go, lines 57–61. -/
structure AppSearchEntity where
  Name : String
  Instances : Nat
  SpaceGuid : String
deriving DecidableEq, Repr

/-- `AppSearchResoures` from src/main.go, lines 47–50 (source spelling
kept): one listed workload. -/
structure AppSearchResoures where
  Metadata : AppSearchMetaData
  Entity : AppSearchEntity
deriving DecidableEq, Repr

/-- `AppSearchResults` from src/main.go, lines 43–45. -/
structure AppSearchResults where
  Resources : List AppSearchResoures
deriving DecidableEq, Repr

/-- `appStatSummary` from src/main.go, lines 23–31.  `Ratio` is `float64`
in the source, modelled by `ℚ`. -/
structure appStatSummary where
  Name : String
  GUID : String
  Space : String
  Instances : Nat
  MemoryAlloc : Nat
  AvgMemoryUse : Nat
  Ratio : ℚ
deriving DecidableEq, Repr

/-! ## Sorting (src/main.go, lines 33, 39–41 and 143) -/

/-- `byRatio.Less` from src/main.go, line 41:
`func (a byRatio) Less(i, j int) bool { return a[j].Ratio < a[i].Ratio }`. -/
def byRatioLess (a b : appStatSummary) : Bool :=
  decide (b.Ratio < a.Ratio)

/-- The non-strict comparator induced by `byRatioLess`: `sort.Sort` leaves
the slice ordered so that no later element is `Less` than an earlier one,
i.e. sorted under `fun a b => !byRatioLess b a`. -/
def ratioLe (a b : appStatSummary) : Bool :=
  !(byRatioLess b a)

/-- `sort.Sort(byRatio(appStats))` from src/main.go, line 143: an
(unstable, order-among-ties unspecified) comparison sort under
`byRatio.Less`, modelled by `mergeSort` under the induced non-strict
comparator. -/
def sortByRatio (l : List appStatSummary) : List appStatSummary :=
  l.mergeSort ratioLe

/-! ## Fetching (src/main.go, lines 156–185)

The CLI connection (`cliConnection.CliCommandWithoutTerminalOutput`) is an
external capability; its outcome for the one request a fetch issues is a
pair of the output lines and an optional error.  The JSON decoder is
likewise external: a fetch is parameterised over a parse function, which
on success produces the decoded value and on failure the error that
`json.Unmarshal` returns. -/

/-- Outcome of one `cliConnection.CliCommandWithoutTerminalOutput` call:
the output lines and the (best-effort) transport error. -/
abbrev CliOutcome := List String × Option String

/-- `GetAppStats` from src/main.go, lines 156–173, applied to the outcome
of its single request.  The source discards the transport error (line 161
binds it to `_`), joins the output lines with an empty separator, and
returns `json.Unmarshal`'s result: the decoded map with a nil error on
parse success, or a non-nil error on parse failure (the partially-filled
map returned alongside a non-nil error is never read by the caller and is
modelled as empty).  The intermediate `json.Compact` call's buffer and
error are unused by the result and are omitted. -/
def GetAppStats (parseStatsMap : String → Except String StatsMap)
    (conn : CliOutcome) : StatsMap × Option String :=
  match parseStatsMap (String.join conn.1) with
  | .ok m => (m, none)
  | .error e => ([], some e)

/-- `GetAllApps` from src/main.go, lines 175–185, applied to the outcome
of its single request.  The transport error is discarded (line 180), the
`json.Unmarshal` error is ignored entirely, and the function returns
`(res, nil)` unconditionally: on parse failure `res` is whatever
zero-valued or partial structure unmarshalling left behind (modelled as
the zero value, an empty resource list). -/
def GetAllApps (parseResults : String → Except String AppSearchResults)
    (conn : CliOutcome) : AppSearchResults × Option String :=
  match parseResults (String.join conn.1) with
  | .ok r => (r, none)
  | .error _ => ({ Resources := [] }, none)

/-! ## The aggregation worker and the run (src/main.go, lines 86–154)

A stats fetcher is abstracted as a function from workload guid to either
an error or a stats map (the observable outcome of `GetAppStats` for that
guid, as checked by the worker at line 108). -/

/-- The worker body of src/main.go, lines 105–133 (one goroutine per
workload): fetch stats; on error produce nothing; if instance "0" is not
in state "RUNNING" produce nothing; otherwise build the summary with
`memAlloc` the quota of instance "0", `AvgMemoryUse` the truncated
quotient of the total usage by the stats-map size, and `Ratio` the
(float, here `ℚ`) quotient of `memAlloc` by that truncated average.
(The progress-bar increment is observational and omitted.) -/
def processApp (fetch : String → Except String StatsMap)
    (cfApp : AppSearchResoures) : Option appStatSummary :=
  match fetch cfApp.Metadata.Guid with
  | .error _ => none
  | .ok stats =>
    if (statsGet stats "0").State ≠ "RUNNING" then none
    else
      let memAlloc := (statsGet stats "0").Stats.MemQuota
      let totalUsage := statsTotalUsage stats
      some {
        Name := cfApp.Entity.Name
        GUID := cfApp.Metadata.Guid
        Space := cfApp.Entity.SpaceGuid
        Instances := cfApp.Entity.Instances
        MemoryAlloc := memAlloc
        AvgMemoryUse := totalUsage / stats.length
        Ratio := (memAlloc : ℚ) / ((totalUsage / stats.length : Nat) : ℚ) }

/-- The aggregation of src/main.go, lines 97–139: every workload is
dispatched exactly once and its worker appends at most one summary to the
shared slice; completion order is scheduler-dependent, the collected set
is not, so the collection is modelled in workload-list order. -/
def collectStats (fetch : String → Except String StatsMap)
    (apps : List AppSearchResoures) : List appStatSummary :=
  apps.filterMap (processApp fetch)

/-- `Run` from src/main.go restricted to its core: aggregate all
workloads, then sort descending by ratio (line 143).  The result is the
ranked sequence handed row by row to the table renderer. -/
def hallOfShameRun (fetch : String → Except String StatsMap)
    (apps : List AppSearchResoures) : List appStatSummary :=
  sortByRatio (collectStats fetch apps)

/-! ## Bounded concurrency (src/main.go, lines 97, 100, 103, 139)

Modelled from the spec: the semantics of the external
`sizedwaitgroup` library (`New(2)`, `Add`, `Done`, `Wait`) used by `Run`
is not part of this repository; per the spec it is a counting semaphore
giving a hard cap on simultaneously in-flight units and join semantics.
The dispatch loop of `Run` is modelled as a transition system: `add`
dispatches a pending workload when a slot is free (`wg.Add()` blocks
otherwise) and `done` retires an in-flight worker (`wg.Done()`).
`wg.Wait()` returns exactly in the states with nothing pending and nothing
in flight. -/

/-- State of the dispatch loop: workloads not yet dispatched, workers in
flight (added, not yet done), workers completed (whether their fetch
succeeded or failed). -/
structure SWGState where
  pending : Nat
  inFlight : Nat
  completed : Nat
deriving DecidableEq, Repr

/-- One step of the dispatch loop under capacity `cap`. -/
inductive SWGStep (cap : Nat) : SWGState → SWGState → Prop where
  | add (s : SWGState) (hcap : s.inFlight < cap) (hp : 0 < s.pending) :
      SWGStep cap s { pending := s.pending - 1, inFlight := s.inFlight + 1,
                      completed := s.completed }
  | done (s : SWGState) (hf : 0 < s.inFlight) :
      SWGStep cap s { pending := s.pending, inFlight := s.inFlight - 1,
                      completed := s.completed + 1 }

/-- Initial state of a run over `n` workloads. -/
def SWGInit (n : Nat) : SWGState :=
  { pending := n, inFlight := 0, completed := 0 }

/-- The states the dispatch loop can reach from `SWGInit n` under
capacity `cap`. -/
def SWGReachable (cap n : Nat) (s : SWGState) : Prop :=
  Relation.ReflTransGen (SWGStep cap) (SWGInit n) s

/-- `wg.Wait()` (src/main.go, line 139) returns in `s`: the loop has
dispatched everything and every worker has called `Done`. -/
def waitReturns (s : SWGState) : Prop :=
  s.pending = 0 ∧ s.inFlight = 0

/-! ## General lemmas about the embedding -/

/-- `ratioLe` as a proposition. -/
theorem ratioLe_iff (a b : appStatSummary) :
    ratioLe a b = true ↔ b.Ratio ≤ a.Ratio := by
  simp [ratioLe, byRatioLess, not_lt]

/-- An empty stats map never passes the state guard: indexing it at "0"
yields the zero value, whose state is the empty string. -/
theorem statsGet_nil : statsGet [] "0" = zeroAppStat := rfl

/-- A produced summary always comes from a successfully fetched stats map
whose instance "0" is RUNNING, and its fields are exactly those computed
by the worker body. -/
theorem processApp_eq_some_iff (fetch : String → Except String StatsMap)
    (cfApp : AppSearchResoures) (s : appStatSummary) :
    processApp fetch cfApp = some s ↔
      ∃ stats, fetch cfApp.Metadata.Guid = .ok stats ∧
        (statsGet stats "0").State = "RUNNING" ∧
        s = { Name := cfApp.Entity.Name
              GUID := cfApp.Metadata.Guid
              Space := cfApp.Entity.SpaceGuid
              Instances := cfApp.Entity.Instances
              MemoryAlloc := (statsGet stats "0").Stats.MemQuota
              AvgMemoryUse := statsTotalUsage stats / stats.length
              Ratio := ((statsGet stats "0").Stats.MemQuota : ℚ) /
                ((statsTotalUsage stats / stats.length : Nat) : ℚ) } := by
  constructor
  · intro h
    unfold processApp at h
    rcases hf : fetch cfApp.Metadata.Guid with e | stats
    · rw [hf] at h; exact absurd h (by simp)
    · rw [hf] at h
      by_cases hst : (statsGet stats "0").State = "RUNNING"
      · refine ⟨stats, rfl, hst, ?_⟩
        simp only [hst, ne_eq, not_true_eq_false, if_false] at h
        simp at h
        exact h.symm
      · simp only [ne_eq, hst, not_false_eq_true, if_true] at h
        exact absurd h (by simp)
  · rintro ⟨stats, hf, hst, hs⟩
    unfold processApp
    rw [hf]
    simp only [hst, ne_eq, not_true_eq_false, if_false]
    rw [hs]

/-- Membership in the ranked output is membership in the collected set. -/
theorem mem_hallOfShameRun (fetch : String → Except String StatsMap)
    (apps : List AppSearchResoures) (s : appStatSummary) :
    s ∈ hallOfShameRun fetch apps ↔ s ∈ collectStats fetch apps := by
  unfold hallOfShameRun sortByRatio
  exact List.mem_mergeSort

/-- A fetch error makes the worker produce nothing. -/
theorem processApp_fetch_error (fetch : String → Except String StatsMap)
    (cfApp : AppSearchResoures) (e : String)
    (hf : fetch cfApp.Metadata.Guid = .error e) :
    processApp fetch cfApp = none := by
  unfold processApp
  rw [hf]

/-- A worker that produces nothing leaves the rest of the batch alone. -/
theorem collectStats_cons_none (fetch : String → Except String StatsMap)
    (cfApp : AppSearchResoures) (rest : List AppSearchResoures)
    (h : processApp fetch cfApp = none) :
    collectStats fetch (cfApp :: rest) = collectStats fetch rest := by
  simp [collectStats, List.filterMap_cons, h]

/-! ## Concrete data used in witnesses and counterexamples -/

/-- An instance stat in the given state with the given quota and usage. -/
def mkStat (state : String) (quota usage : Nat) : AppStat :=
  { State := state, Stats := { MemQuota := quota, Usage := { Mem := usage } } }

/-- Workload of the worked example: guid "g8", 3 declared instances. -/
def app8 : AppSearchResoures :=
  { Metadata := { Guid := "g8", Url := "" },
    Entity := { Name := "memhog", Instances := 3, SpaceGuid := "sp8" } }

/-- Stats of the worked example: three RUNNING instances using 100, 200
and 300 bytes, each with quota 600. -/
def stats8 : StatsMap :=
  [("0", mkStat "RUNNING" 600 100),
   ("1", mkStat "RUNNING" 600 200),
   ("2", mkStat "RUNNING" 600 300)]

/-- A fetcher that answers every guid with the worked-example stats. -/
def fetch8 : String → Except String StatsMap := fun _ => .ok stats8

/-- Workload whose fetch yields an empty stats map: guid "g2". -/
def app2 : AppSearchResoures :=
  { Metadata := { Guid := "g2", Url := "" },
    Entity := { Name := "ghost", Instances := 0, SpaceGuid := "sp2" } }

/-- A fetcher that answers guid "g2" with an empty stats map and every
other guid with the worked-example stats. -/
def fetch2 : String → Except String StatsMap :=
  fun guid => if guid = "g2" then .ok [] else .ok stats8

/-- Workload whose instance "0" is STOPPED: guid "g4". -/
def app4 : AppSearchResoures :=
  { Metadata := { Guid := "g4", Url := "" },
    Entity := { Name := "stopped", Instances := 2, SpaceGuid := "sp4" } }

/-- Stats whose instance "0" is STOPPED while instance "1" is RUNNING and
reports nonzero usage. -/
def stats4 : StatsMap :=
  [("0", mkStat "STOPPED" 512 0), ("1", mkStat "RUNNING" 512 256)]

/-- A fetcher that answers every guid with `stats4`. -/
def fetch4 : String → Except String StatsMap := fun _ => .ok stats4

/-- Workload whose fetch fails: guid "g5". -/
def app5 : AppSearchResoures :=
  { Metadata := { Guid := "g5", Url := "" },
    Entity := { Name := "unreachable", Instances := 1, SpaceGuid := "sp5" } }

/-- A fetcher that fails on guid "g5" and answers every other guid with
the worked-example stats. -/
def fetch5 : String → Except String StatsMap :=
  fun guid => if guid = "g5" then .error "stats request failed" else .ok stats8

/-! ## Claims -/

/-- C8: for a workload with 3 instances in state "RUNNING" reporting
observed memory usage 100, 200 and 300 bytes and a declared allocation
(mem_quota of instance "0") of 600, the produced summary has
AvgMemoryUse = (100 + 200 + 300) / 3 = 200 and Ratio = 600 / 200 = 3. -/
theorem three_running_instances_example :
    processApp fetch8 app8 = some
      { Name := "memhog", GUID := "g8", Space := "sp8", Instances := 3,
        MemoryAlloc := 600, AvgMemoryUse := 200, Ratio := 3 } := by
  simp only [processApp, fetch8, app8, stats8, statsGet, statsTotalUsage, mkStat]
  norm_num [List.lookup]

/-- C2: a workload whose stats fetch succeeds but returns an empty stats
map is skipped without a crash: indexing the empty map at "0" yields the
zero-valued `AppStat`, whose state "" is not "RUNNING", so the worker
returns before ever dividing by the map size; no summary is emitted for
that workload and the remaining workloads are processed unchanged. -/
theorem empty_stats_map_skipped (fetch : String → Except String StatsMap)
    (cfApp : AppSearchResoures) (rest : List AppSearchResoures)
    (hf : fetch cfApp.Metadata.Guid = .ok []) :
    processApp fetch cfApp = none ∧
      collectStats fetch (cfApp :: rest) = collectStats fetch rest := by
  have hnone : processApp fetch cfApp = none := by
    unfold processApp
    rw [hf]
    simp [statsGet, zeroAppStat]
  exact ⟨hnone, collectStats_cons_none fetch cfApp rest hnone⟩

/-- Witness for C2: the zero-instance workload "g2" is dropped while the
worked-example workload in the rest of the batch is still processed. -/
theorem empty_stats_map_skipped_witness :
    processApp fetch2 app2 = none ∧
      collectStats fetch2 (app2 :: [app8]) = collectStats fetch2 [app8] :=
  empty_stats_map_skipped fetch2 app2 [app8] rfl

/-- C4: a workload whose fetched stats report instance "0" in a lifecycle
state other than "RUNNING" produces no summary, regardless of what usage
the other instances report. -/
theorem non_running_instance_zero_skipped
    (fetch : String → Except String StatsMap) (cfApp : AppSearchResoures)
    (stats : StatsMap) (hf : fetch cfApp.Metadata.Guid = .ok stats)
    (hs : (statsGet stats "0").State ≠ "RUNNING") :
    processApp fetch cfApp = none := by
  unfold processApp
  rw [hf]
  simp [hs]

/-- Witness for C4: instance "0" is STOPPED, instance "1" is RUNNING with
usage 256, and no summary is produced. -/
theorem non_running_instance_zero_skipped_witness :
    processApp fetch4 app4 = none :=
  non_running_instance_zero_skipped fetch4 app4 stats4 rfl (by decide)

/-- C5: a workload whose stats fetch returns an error contributes no
summary, and the remaining workloads of the batch are processed exactly
as without it. -/
theorem fetch_error_skipped_and_batch_continues
    (fetch : String → Except String StatsMap) (cfApp : AppSearchResoures)
    (rest : List AppSearchResoures) (e : String)
    (hf : fetch cfApp.Metadata.Guid = .error e) :
    processApp fetch cfApp = none ∧
      collectStats fetch (cfApp :: rest) = collectStats fetch rest := by
  have hnone := processApp_fetch_error fetch cfApp e hf
  exact ⟨hnone, collectStats_cons_none fetch cfApp rest hnone⟩

/-- Witness for C5: the fetch for "g5" errors, the workload is dropped,
and the worked-example workload after it is still processed. -/
theorem fetch_error_skipped_and_batch_continues_witness :
    processApp fetch5 app5 = none ∧
      collectStats fetch5 (app5 :: [app8]) = collectStats fetch5 [app8] :=
  fetch_error_skipped_and_batch_continues fetch5 app5 [app8]
    "stats request failed" rfl

/-- The comparator `ratioLe` is total. -/
theorem ratioLe_total (a b : appStatSummary) :
    ratioLe a b || ratioLe b a := by
  rcases le_total b.Ratio a.Ratio with h | h
  · simp [ratioLe_iff a b |>.mpr h]
  · simp [ratioLe_iff b a |>.mpr h]

/-- The comparator `ratioLe` is transitive. -/
theorem ratioLe_trans (a b c : appStatSummary) :
    ratioLe a b → ratioLe b c → ratioLe a c := by
  intro h₁ h₂
  exact (ratioLe_iff a c).mpr
    (le_trans ((ratioLe_iff b c).mp h₂) ((ratioLe_iff a b).mp h₁))

/-- The result of `sortByRatio` is pairwise descending by ratio. -/
theorem sortByRatio_pairwise (l : List appStatSummary) :
    (sortByRatio l).Pairwise (fun a b => b.Ratio ≤ a.Ratio) := by
  have h : (List.mergeSort l ratioLe).Pairwise (fun a b => ratioLe a b) :=
    List.sorted_mergeSort (fun a b c => ratioLe_trans a b c)
      (fun a b => ratioLe_total a b) l
  exact h.imp (fun hab => (ratioLe_iff _ _).mp hab)

/-- A summary produced from a singleton workload list is in the ranked
output of that list. -/
theorem mem_hallOfShameRun_single (fetch : String → Except String StatsMap)
    (cfApp : AppSearchResoures) (s : appStatSummary)
    (hp : processApp fetch cfApp = some s) :
    s ∈ hallOfShameRun fetch [cfApp] := by
  rw [mem_hallOfShameRun]
  simp [collectStats, List.filterMap_cons, hp]

/-- Workload all of whose instances report zero observed usage: guid
"gz".  It is RUNNING, so the worker builds a summary for it; the total
usage is 0, so `AvgMemoryUse = 0 / 1 = 0` and the Go float ratio
`600 / 0.0` is non-finite (`+Inf`; `0` under the `ℚ` convention). -/
def appZ : AppSearchResoures :=
  { Metadata := { Guid := "gz", Url := "" },
    Entity := { Name := "idle", Instances := 1, SpaceGuid := "spz" } }

/-- Stats of the zero-usage workload: one RUNNING instance, quota 600,
observed usage 0. -/
def statsZ : StatsMap := [("0", mkStat "RUNNING" 600 0)]

/-- A fetcher that answers every guid with the zero-usage stats. -/
def fetchZ : String → Except String StatsMap := fun _ => .ok statsZ

/-- C1 counterexample: the claim says no summary with zero average usage
ever appears in the output, but a RUNNING workload whose instances all
report zero usage is not skipped: it yields a summary with
AvgMemoryUse = 0 (and a non-finite Go ratio) in the final ranked
output. -/
theorem zero_avg_summary_in_output :
    ∃ s ∈ hallOfShameRun fetchZ [appZ], s.AvgMemoryUse = 0 := by
  have hp : processApp fetchZ appZ = some
      { Name := "idle", GUID := "gz", Space := "spz", Instances := 1,
        MemoryAlloc := 600, AvgMemoryUse := 0, Ratio := 0 } := by
    simp only [processApp, fetchZ, appZ, statsZ, statsGet, statsTotalUsage,
      mkStat]
    norm_num [List.lookup]
  exact ⟨_, mem_hallOfShameRun_single fetchZ appZ _ hp, rfl⟩

/-- C1 (amended): for every summary in the final ranked output with
AvgMemoryUse > 0, Ratio = MemoryAlloc / AvgMemoryUse.  The strict
positivity asserted by the claim does not hold: a RUNNING workload whose
instances all report zero observed usage yields a summary with
AvgMemoryUse = 0 (hence a non-finite float ratio) that does appear in the
output. -/
theorem output_ratio_eq_alloc_div_avg
    (fetch : String → Except String StatsMap)
    (apps : List AppSearchResoures) (s : appStatSummary)
    (hmem : s ∈ hallOfShameRun fetch apps) (hpos : 0 < s.AvgMemoryUse) :
    s.Ratio = (s.MemoryAlloc : ℚ) / (s.AvgMemoryUse : ℚ) := by
  rw [mem_hallOfShameRun] at hmem
  unfold collectStats at hmem
  obtain ⟨cfApp, -, happ⟩ := List.mem_filterMap.mp hmem
  obtain ⟨stats, -, -, hs⟩ := (processApp_eq_some_iff fetch cfApp s).mp happ
  subst hs
  rfl

/-- The summary of the worked example (guid "g8"), as the worker computes
it. -/
def s8 : appStatSummary :=
  { Name := "memhog", GUID := "g8", Space := "sp8", Instances := 3,
    MemoryAlloc := 600, AvgMemoryUse := 200, Ratio := 3 }

/-- Witness for amended C1: the worked-example summary is in the output,
has positive average usage, and its ratio is 600 / 200 = 3. -/
theorem output_ratio_eq_alloc_div_avg_witness :
    s8.Ratio = (s8.MemoryAlloc : ℚ) / (s8.AvgMemoryUse : ℚ) :=
  output_ratio_eq_alloc_div_avg fetch8 [app8] s8
    (mem_hallOfShameRun_single fetch8 app8 s8 (by
      simp only [processApp, fetch8, app8, stats8, statsGet, statsTotalUsage,
        mkStat, s8]
      norm_num [List.lookup]))
    (by norm_num [s8])

/-- C10: a produced summary's AvgMemoryUse is the truncated (integer)
quotient of the total observed usage by the number of entries of the
stats map, and Ratio is computed from this truncated average, not from
the exact rational mean. -/
theorem avg_is_truncated_quotient
    (fetch : String → Except String StatsMap) (cfApp : AppSearchResoures)
    (stats : StatsMap) (s : appStatSummary)
    (hf : fetch cfApp.Metadata.Guid = .ok stats)
    (hp : processApp fetch cfApp = some s) :
    s.AvgMemoryUse = statsTotalUsage stats / stats.length ∧
      s.Ratio = (s.MemoryAlloc : ℚ) /
        ((statsTotalUsage stats / stats.length : Nat) : ℚ) := by
  obtain ⟨stats', hf', -, hs⟩ := (processApp_eq_some_iff fetch cfApp s).mp hp
  rw [hf] at hf'
  injection hf' with h
  subst h
  subst hs
  exact ⟨rfl, rfl⟩

/-- Workload with two instances using 1 and 2 bytes: guid "g10". -/
def app10 : AppSearchResoures :=
  { Metadata := { Guid := "g10", Url := "" },
    Entity := { Name := "fraction", Instances := 2, SpaceGuid := "sp10" } }

/-- Stats with usages 1 and 2: the exact mean is 3/2, the truncated
average is 1. -/
def stats10 : StatsMap :=
  [("0", mkStat "RUNNING" 600 1), ("1", mkStat "RUNNING" 600 2)]

/-- A fetcher that answers every guid with `stats10`. -/
def fetch10 : String → Except String StatsMap := fun _ => .ok stats10

/-- The summary the worker computes for `app10`: truncated average 1
(not 3/2) and ratio 600 / 1 = 600. -/
def s10 : appStatSummary :=
  { Name := "fraction", GUID := "g10", Space := "sp10", Instances := 2,
    MemoryAlloc := 600, AvgMemoryUse := 1, Ratio := 600 }

/-- Witness for C10: two instances using 1 and 2 bytes yield
AvgMemoryUse = 1 (not 1.5), and the ratio 600 exceeds the allocation
divided by the exact mean, 600 / (3/2) = 400. -/
theorem avg_is_truncated_quotient_witness :
    (s10.AvgMemoryUse = statsTotalUsage stats10 / stats10.length ∧
      s10.Ratio = (s10.MemoryAlloc : ℚ) /
        ((statsTotalUsage stats10 / stats10.length : Nat) : ℚ)) ∧
      s10.AvgMemoryUse = 1 ∧
      (s10.MemoryAlloc : ℚ) / ((3 : ℚ) / 2) < s10.Ratio :=
  ⟨avg_is_truncated_quotient fetch10 app10 stats10 s10 rfl (by
      simp only [processApp, fetch10, app10, stats10, statsGet,
        statsTotalUsage, mkStat, s10]
      norm_num [List.lookup]),
    by norm_num [s10], by norm_num [s10]⟩

/-- Model of `json.Unmarshal` into `map[string]AppStat` at the inputs the
counterexample probes: the body "{}" decodes to the empty map (as the Go
decoder does); the other bodies reaching it here fail to decode. -/
def parseProbe : String → Except String StatsMap := fun body =>
  if body = "{}" then .ok [] else .error "unexpected end of JSON input"

/-- C6 counterexample: the claim says a transport failure always yields a
non-nil error, but src/main.go line 161 binds the transport error to `_`:
only the `json.Unmarshal` error is returned.  A transport outcome with a
non-nil error whose output still joins to the parseable body "{}" makes
`GetAppStats` return a nil error. -/
theorem getAppStats_transport_error_swallowed :
    ((["{}"], some "connection refused") : CliOutcome).2 ≠ none ∧
      (GetAppStats parseProbe (["{}"], some "connection refused")).2 =
        none := by
  constructor
  · simp
  · rfl

/-- C6 (amended): `GetAppStats` returns a non-nil error exactly when the
joined response output fails to parse as a stats map.  Parse failures do
propagate; the transport error itself is discarded, so a transport
failure surfaces only through its (typically empty, hence unparseable)
output, never directly. -/
theorem getAppStats_error_iff_parse_fails
    (parse : String → Except String StatsMap) (conn : CliOutcome) :
    (GetAppStats parse conn).2 ≠ none ↔
      ∃ e, parse (String.join conn.1) = .error e := by
  unfold GetAppStats
  cases h : parse (String.join conn.1) <;> simp [h]

/-- C7: `GetAllApps` never fails hard: whatever the transport outcome and
however the output parses, it returns a (possibly empty or partial)
result together with a nil error (src/main.go line 184 returns
`res, nil` unconditionally, and line 180 discards the transport
error). -/
theorem getAllApps_never_returns_error
    (parse : String → Except String AppSearchResults) (conn : CliOutcome) :
    (GetAllApps parse conn).2 = none := by
  unfold GetAllApps
  cases h : parse (String.join conn.1) <;> simp [h]

/-- Reachable states of the dispatch loop keep the semaphore within its
capacity and conserve the number of workloads. -/
theorem swg_invariant (cap n : Nat) (s : SWGState)
    (h : SWGReachable cap n s) :
    s.inFlight ≤ cap ∧ s.pending + s.inFlight + s.completed = n := by
  induction h with
  | refl => exact ⟨Nat.zero_le cap, by simp [SWGInit]⟩
  | @tail b c hr hstep ih =>
    obtain ⟨ih1, ih2⟩ := ih
    cases hstep with
    | add hcap hp =>
      refine ⟨hcap, ?_⟩
      show b.pending - 1 + (b.inFlight + 1) + b.completed = n
      omega
    | done hf =>
      refine ⟨?_, ?_⟩
      · show b.inFlight - 1 ≤ cap
        omega
      · show b.pending + (b.inFlight - 1) + (b.completed + 1) = n
        omega

/-- C9: under the concurrency bound 2 every state the dispatch loop of
`Run` can reach has at most 2 workers in flight, and whenever
`wg.Wait()` returns (nothing pending, nothing in flight) all n workloads
have completed, whether their fetch succeeded or failed. -/
theorem bounded_concurrency_and_join (n : Nat) (s : SWGState)
    (h : SWGReachable 2 n s) :
    s.inFlight ≤ 2 ∧ (waitReturns s → s.completed = n) := by
  obtain ⟨hcap, hsum⟩ := swg_invariant 2 n s h
  exact ⟨hcap, fun hw => by
    obtain ⟨hp, hf⟩ := hw
    omega⟩

/-- Witness for C9: a run over 2 workloads that dispatches both (filling
both slots) and retires both reaches the wait-returning state with 2
completed, and never exceeded 2 in flight. -/
theorem bounded_concurrency_and_join_witness :
    (SWGState.mk 0 0 2).inFlight ≤ 2 ∧ (SWGState.mk 0 0 2).completed = 2 := by
  have s1 : SWGStep 2 ⟨2, 0, 0⟩ ⟨1, 1, 0⟩ :=
    SWGStep.add ⟨2, 0, 0⟩ (by decide) (by decide)
  have s2 : SWGStep 2 ⟨1, 1, 0⟩ ⟨0, 2, 0⟩ :=
    SWGStep.add ⟨1, 1, 0⟩ (by decide) (by decide)
  have s3 : SWGStep 2 ⟨0, 2, 0⟩ ⟨0, 1, 1⟩ :=
    SWGStep.done ⟨0, 2, 0⟩ (by decide)
  have s4 : SWGStep 2 ⟨0, 1, 1⟩ ⟨0, 0, 2⟩ :=
    SWGStep.done ⟨0, 1, 1⟩ (by decide)
  have hreach : SWGReachable 2 2 ⟨0, 0, 2⟩ :=
    Relation.ReflTransGen.tail
      (Relation.ReflTransGen.tail
        (Relation.ReflTransGen.tail
          (Relation.ReflTransGen.tail Relation.ReflTransGen.refl s1) s2) s3)
      s4
  have h := bounded_concurrency_and_join 2 ⟨0, 0, 2⟩ hreach
  exact ⟨h.1, h.2 ⟨rfl, rfl⟩⟩

/-! ## Float-level ratio comparisons (for the ordering claim)

The `ℚ`-valued `Ratio` field collapses the non-finite float64 values the
worker stores when `AvgMemoryUse = 0` (`+Inf` for positive allocation,
`NaN` for allocation 0).  Those values change the behaviour of the sort
comparator at line 41 — every IEEE comparison involving `NaN` is false —
so the ordering claim is settled against an explicit float-value model:
the value class of the stored `float64`, recovered from the two integer
fields it was computed from. -/

/-- Value class of the `float64` numbers arising in the program: a finite
value (exact over `ℚ`: the operands are integer byte counts, far below
2^53), positive infinity, or NaN. -/
inductive GoFloat where
  | finite (val : ℚ)
  | posInf
  | nan
deriving DecidableEq, Repr

/-- Go float64 division `float64(a) / float64(b)` of the nonnegative
integer operands the worker divides at line 130: a positive value divided
by zero is `+Inf`, zero divided by zero is `NaN`, otherwise the finite
quotient. -/
def goDivFloat (a b : Nat) : GoFloat :=
  if b = 0 then (if a = 0 then .nan else .posInf)
  else .finite ((a : ℚ) / (b : ℚ))

/-- IEEE-754 `x >= y` on these values: every comparison involving `NaN`
is false. -/
def goFloatGe (x y : GoFloat) : Bool :=
  match x, y with
  | .nan, _ => false
  | _, .nan => false
  | .posInf, _ => true
  | .finite _, .posInf => false
  | .finite p, .finite q => decide (q ≤ p)

/-- The `float64` the worker stores in `Ratio` (line 130), recovered from
the integer fields: for every summary `processApp` produces,
`Ratio = float64(MemoryAlloc) / float64(AvgMemoryUse)`, so the stored
float is `goDivFloat MemoryAlloc AvgMemoryUse` (the `ℚ` field collapses
its non-finite cases to 0). -/
def floatRatio (s : appStatSummary) : GoFloat :=
  goDivFloat s.MemoryAlloc s.AvgMemoryUse

/-- Every summary in the ranked output carries the ratio the worker
computed from its own integer fields (no positivity needed for the
`ℚ`-level equation, which holds by construction). -/
theorem mem_run_ratio_eq (fetch : String → Except String StatsMap)
    (apps : List AppSearchResoures) (s : appStatSummary)
    (hmem : s ∈ hallOfShameRun fetch apps) :
    s.Ratio = (s.MemoryAlloc : ℚ) / (s.AvgMemoryUse : ℚ) := by
  rw [mem_hallOfShameRun] at hmem
  unfold collectStats at hmem
  obtain ⟨cfApp, -, happ⟩ := List.mem_filterMap.mp hmem
  obtain ⟨stats, -, -, hs⟩ := (processApp_eq_some_iff fetch cfApp s).mp happ
  subst hs
  rfl

/-- Workload whose single RUNNING instance has quota 0 and usage 0: guid
"gn".  The worker computes `Ratio = 0.0 / 0.0 = NaN`. -/
def appN : AppSearchResoures :=
  { Metadata := { Guid := "gn", Url := "" },
    Entity := { Name := "noquota", Instances := 1, SpaceGuid := "spn" } }

/-- Stats of the NaN workload: one RUNNING instance, quota 0, usage 0. -/
def statsN : StatsMap := [("0", mkStat "RUNNING" 0 0)]

/-- A fetcher that answers guid "gn" with the NaN-producing stats and
every other guid with the worked-example stats. -/
def fetchN : String → Except String StatsMap :=
  fun guid => if guid = "gn" then .ok statsN else .ok stats8

/-- The summary the worker computes for `appN`: allocation 0, average 0,
stored float ratio `0.0 / 0.0 = NaN` (collapsed to 0 in the `ℚ`
field). -/
def sN : appStatSummary :=
  { Name := "noquota", GUID := "gn", Space := "spn", Instances := 1,
    MemoryAlloc := 0, AvgMemoryUse := 0, Ratio := 0 }

/-- C3 counterexample: a batch of the NaN workload (quota 0, usage 0,
RUNNING) and the worked-example workload collects exactly the summaries
`sN` (stored ratio NaN) and `s8` (stored ratio 3).  `sort.Sort` returns
some permutation of them, and in float semantics *both* permutations of
this two-element collection violate the claimed adjacent
`a.Ratio >= b.Ratio` — every comparison with NaN is false — so the
program's ranked output violates the claim whatever order the unstable
sort picks. -/
theorem nan_ratio_breaks_descending_order :
    collectStats fetchN [appN, app8] = [sN, s8] ∧
      floatRatio sN = GoFloat.nan ∧
      floatRatio s8 = GoFloat.finite 3 ∧
      ¬ List.Chain'
        (fun a b => goFloatGe (floatRatio a) (floatRatio b) = true)
        [sN, s8] ∧
      ¬ List.Chain'
        (fun a b => goFloatGe (floatRatio a) (floatRatio b) = true)
        [s8, sN] := by
  have hfN : fetchN appN.Metadata.Guid = .ok statsN := rfl
  have hf8 : fetchN app8.Metadata.Guid = .ok stats8 := rfl
  have h1 : processApp fetchN appN = some sN := by
    unfold processApp
    rw [hfN]
    simp only [statsN, statsGet, statsTotalUsage, mkStat, appN, sN]
    norm_num [List.lookup]
  have h2 : processApp fetchN app8 = some s8 := by
    unfold processApp
    rw [hf8]
    simp only [stats8, statsGet, statsTotalUsage, mkStat, app8, s8]
    norm_num [List.lookup]
  refine ⟨by simp [collectStats, List.filterMap_cons, h1, h2], rfl, ?_, ?_, ?_⟩
  · simp [floatRatio, goDivFloat, s8]
    norm_num
  · simp [List.chain'_cons, floatRatio, goDivFloat, goFloatGe, sN, s8]
  · simp [List.chain'_cons, floatRatio, goDivFloat, goFloatGe, sN, s8]

/-- C3 (amended): provided every summary in the ranked output has
AvgMemoryUse > 0 — so every stored float ratio is finite, the condition
whose failure the counterexample exhibits and C1's correction already
documents — the output is in descending order of the stored float ratio:
for every pair of adjacent elements (a, b), `a.Ratio >= b.Ratio` holds in
IEEE float semantics. -/
theorem ranked_output_sorted_descending_finite
    (fetch : String → Except String StatsMap)
    (apps : List AppSearchResoures)
    (hfin : ∀ s ∈ hallOfShameRun fetch apps, 0 < s.AvgMemoryUse) :
    (hallOfShameRun fetch apps).Chain'
      (fun a b => goFloatGe (floatRatio a) (floatRatio b) = true) := by
  have hq : (hallOfShameRun fetch apps).Pairwise
      (fun a b => b.Ratio ≤ a.Ratio) :=
    sortByRatio_pairwise (collectStats fetch apps)
  refine (List.Pairwise.imp_of_mem ?_ hq).chain'
  intro a b ha hb hle
  have hfa := Nat.pos_iff_ne_zero.mp (hfin a ha)
  have hfb := Nat.pos_iff_ne_zero.mp (hfin b hb)
  have hga : floatRatio a = .finite a.Ratio := by
    unfold floatRatio goDivFloat
    rw [if_neg hfa, mem_run_ratio_eq fetch apps a ha]
  have hgb : floatRatio b = .finite b.Ratio := by
    unfold floatRatio goDivFloat
    rw [if_neg hfb, mem_run_ratio_eq fetch apps b hb]
  rw [hga, hgb]
  simpa [goFloatGe] using hle

/-- A fetcher pairing the worked-example stats (guid "g8") with the
1-and-2-byte stats (any other guid): two summaries with distinct positive
averages 200 and 1 and finite ratios 3 and 600. -/
def fetchW : String → Except String StatsMap :=
  fun guid => if guid = "g8" then .ok stats8 else .ok stats10

/-- Witness for amended C3: a two-workload batch whose summaries both
have positive average usage; its ranked output is descending under the
float comparison. -/
theorem ranked_output_sorted_descending_finite_witness :
    (hallOfShameRun fetchW [app8, app10]).Chain'
      (fun a b => goFloatGe (floatRatio a) (floatRatio b) = true) := by
  have hf8 : fetchW app8.Metadata.Guid = .ok stats8 := rfl
  have hf10 : fetchW app10.Metadata.Guid = .ok stats10 := rfl
  have h1 : processApp fetchW app8 = some s8 := by
    unfold processApp
    rw [hf8]
    simp only [stats8, statsGet, statsTotalUsage, mkStat, app8, s8]
    norm_num [List.lookup]
  have h2 : processApp fetchW app10 = some s10 := by
    unfold processApp
    rw [hf10]
    simp only [stats10, statsGet, statsTotalUsage, mkStat, app10, s10]
    norm_num [List.lookup]
  refine ranked_output_sorted_descending_finite fetchW [app8, app10] ?_
  intro s hs
  rw [mem_hallOfShameRun] at hs
  simp only [collectStats, List.filterMap_cons, List.filterMap_nil, h1, h2,
    List.mem_cons, List.not_mem_nil, or_false] at hs
  rcases hs with rfl | rfl
  · decide
  · decide
